import Mathlib

/-!
# Verification of the pptmaker scan/print pipeline

A shallow embedding, in Lean 4, of the folder-watching scan pipeline of the
pptmaker repository (`scan_printer.py`, `scan_router.py`,
`scan_printer_yotsuya.py`, `app.py`), together with theorems settling the
behavioural claims about the stability gate, the QR payload parsers, the
identifier-mapping table, the printer resolver, the destination builder, the
print dispatcher and the per-file handlers.

Python strings are modelled as `List Char`; Python sets and dicts are modelled
as lists with the relevant membership discipline; external effects (file moves,
log records, printer operations) are modelled as explicit action traces, and
calls into the OS (stat, QR decoding, printing) are supplied as oracle inputs
to the embedded control flow.
-/

namespace PPTMaker

/-! ## Stability gate (`wait_until_file_stable`)

The very same function appears in `scan_printer.py` (lines 106-126),
`scan_router.py` (lines 103-123) and `scan_printer_yotsuya.py` (lines 209-229),
with `STABLE_CHECK_INTERVAL_SEC = 0.5` and `STABLE_CHECK_COUNT = 6` in all
three files.  The file's observable behaviour is the sequence of `stat`
results: sample `i` (taken at time `0.5 * i` seconds) is `none` when `stat`
raises `FileNotFoundError` and `some size` otherwise. -/
def STABLE_CHECK_COUNT : Nat := 6

/-- The loop bound `range(STABLE_CHECK_COUNT * 5)`: at most 30 size samples. -/
def STABLE_ATTEMPTS : Nat := STABLE_CHECK_COUNT * 5

/-- The loop body of `wait_until_file_stable`: `i` is the index of the next
sample, `fuel` the remaining iterations of `for _ in range(STABLE_CHECK_COUNT * 5)`,
`last` the previous size (initially `-1`) and `stable` the count of consecutive
unchanged non-zero samples. -/
def waitLoop (sizes : Nat → Option Nat) : Nat → Nat → Int → Nat → Bool
  | _, 0, _, _ => false
  | i, fuel + 1, last, stable =>
    match sizes i with
    | none => false
    | some size =>
      if (size : Int) = last ∧ 0 < size then
        if STABLE_CHECK_COUNT ≤ stable + 1 then true
        else waitLoop sizes (i + 1) fuel last (stable + 1)
      else
        waitLoop sizes (i + 1) fuel (size : Int) 0

/-- `wait_until_file_stable(path)`, as a function of the sample sequence. -/
def wait_until_file_stable (sizes : Nat → Option Nat) : Bool :=
  waitLoop sizes 0 STABLE_ATTEMPTS (-1) 0

/-! ## Identifier-mapping table (`save_print_id_mapping`)

The table is a CSV file with columns `print_id`, `filename`; both
`scan_printer_yotsuya.py` (lines 416-450) and `app.py` (lines 630-656) load it
into a Python dict keyed by `print_id` and write the whole dict back.  We model
the table as the dict contents: an association list in insertion order. -/
/-- Association lookup, the model of `existing_mappings.get` / `print_id in
existing_mappings` on the loaded dict. -/
def lookupMapping : List (String × String) → String → Option String
  | [], _ => none
  | (k, v) :: m, id => if k = id then some v else lookupMapping m id

/-- `save_print_id_mapping` of `app.py` (lines 630-656): the new mapping is
added with `existing_mappings[print_id] = filename`, which replaces the value
in place for an existing key and appends a new entry otherwise; then the whole
table is rewritten. -/
def save_print_id_mapping_app (m : List (String × String)) (id fn : String) :
    List (String × String) :=
  if (lookupMapping m id).isSome then
    m.map fun kv => if kv.1 = id then (kv.1, fn) else kv
  else
    m ++ [(id, fn)]

/-- `save_print_id_mapping` of `scan_printer_yotsuya.py` (lines 416-450): if
`print_id in existing_mappings` the function returns without touching the
table (`# 既に存在する場合はスキップ`); otherwise the new entry is appended and
the whole table is rewritten. -/
def save_print_id_mapping_yotsuya (m : List (String × String)) (id fn : String) :
    List (String × String) :=
  if (lookupMapping m id).isSome then m
  else m ++ [(id, fn)]

/-! ## Python string primitives

Python `str` values are modelled as `List Char`.  `str.strip()` removes
leading and trailing whitespace (modelled for the ASCII whitespace characters
`' '`, `\t`, `\n`, `\r`, `\x0b`, `\x0c`); `str.split(",")` is `List.splitOn`. -/
/-- Python's whitespace test, as used by `str.strip()` (ASCII range). -/
def pyIsSpace (c : Char) : Bool := c.toNat ∈ [32, 9, 10, 13, 11, 12]

/-- `s.strip()`. -/
def pyStrip (s : List Char) : List Char :=
  ((s.dropWhile pyIsSpace).reverse.dropWhile pyIsSpace).reverse

/-! ## Grammar B parser (`parse_qr_payload`, `scan_router.py` lines 200-227) -/
/-- `parse_qr_payload(payload)`: strip the payload, require a comma, split on
commas and strip each field; two fields are `student, teacher` (both required
non-empty), three or more add a text name as the third field.  The result
triple is `(teacher, student, text_name)`, as in the source. -/
def parse_qr_payload (payload : List Char) :
    Option (List Char × List Char × Option (List Char)) :=
  let p := pyStrip payload
  if ',' ∈ p then
    match (p.splitOn ',').map pyStrip with
    | [student, teacher] =>
      if student = [] ∨ teacher = [] then none else some (teacher, student, none)
    | student :: teacher :: text :: _ =>
      if student = [] ∨ teacher = [] then none else some (teacher, student, some text)
    | _ => none
  else none

/-! ## Grammar A parser (`extract_print_id_from_qr`)

`extract_print_id_from_qr` renders page 1, runs `pyzbar_decode` on it and then
parses the decoded payload with `re.search`/`re.match` calls.  The decoder's
output (the list of QR payloads found on the page) is the oracle input.  The
regular expressions `PRINT_ID=([^,\s]+)`, `PRINT_ID=(\S+)`, `FILE=([^,]+)` and
`PRINTER=([^,\s]+)` are all of the shape "literal key, then a greedy non-empty
character-class capture", embedded by `searchCapture`/`matchCapture`. -/
/-- The class `[^,\s]`. -/
def notCommaSpace (c : Char) : Bool := !(c == ',' || pyIsSpace c)

/-- The class `\S`. -/
def nonSpace (c : Char) : Bool := !pyIsSpace c

/-- The class `[^,]`. -/
def notComma (c : Char) : Bool := !(c == ',')

/-- `re.search(key + "(" + class + "+)", s)`: the capture of the leftmost
position where the literal `key` is followed by at least one `ok` character;
the capture is the maximal `ok` run (greedy `+`). -/
def searchCapture (key : List Char) (ok : Char → Bool) : List Char → Option (List Char)
  | [] => none
  | c :: cs =>
    if key.isPrefixOf (c :: cs) then
      let cap := ((c :: cs).drop key.length).takeWhile ok
      if cap = [] then searchCapture key ok cs else some cap
    else searchCapture key ok cs

/-- `re.match(key + "(" + class + "+)", s)`: as `searchCapture` but anchored at
the start of the string. -/
def matchCapture (key : List Char) (ok : Char → Bool) (s : List Char) :
    Option (List Char) :=
  if key.isPrefixOf s then
    let cap := (s.drop key.length).takeWhile ok
    if cap = [] then none else some cap
  else none

/-- One hexadecimal digit, as accepted by `urllib.parse.unquote`. -/
def hexDigitVal (c : Char) : Option Nat :=
  if '0' ≤ c ∧ c ≤ '9' then some (c.toNat - 48)
  else if 'a' ≤ c ∧ c ≤ 'f' then some (c.toNat - 87)
  else if 'A' ≤ c ∧ c ≤ 'F' then some (c.toNat - 55)
  else none

/-- `urllib.parse.unquote`, modelled for single-byte escapes: each `%XX` with
two hex digits becomes the character with code `XX`; an invalid escape keeps
the `%` literally.  (Python additionally reassembles consecutive escaped bytes
into UTF-8 sequences; the payloads in this development only use ASCII
escapes, for which the two behaviours agree.) -/
def unquote : List Char → List Char
  | [] => []
  | '%' :: h1 :: h2 :: rest =>
    match hexDigitVal h1, hexDigitVal h2 with
    | some a, some b => Char.ofNat (16 * a + b) :: unquote rest
    | _, _ => '%' :: unquote (h1 :: h2 :: rest)
  | c :: rest => c :: unquote rest

/-- The payload-parsing part of `extract_print_id_from_qr` in
`scan_printer_yotsuya.py` (lines 490-532): extract `PRINT_ID` (with the
anchored old-format fallback), `FILE` (percent-decoded) and `PRINTER`; without
a `PRINT_ID` everything is dropped. -/
def parseTagPayload (qr_data : List Char) :
    Option (List Char) × Option (List Char) × Option (List Char) :=
  let print_id : Option (List Char) :=
    match searchCapture "PRINT_ID=".data notCommaSpace qr_data with
    | some v => some (pyStrip v)
    | none => (matchCapture "PRINT_ID=".data nonSpace qr_data).map pyStrip
  let original_filename : Option (List Char) :=
    (searchCapture "FILE=".data notComma qr_data).map fun v => unquote (pyStrip v)
  let printer_name : Option (List Char) :=
    (searchCapture "PRINTER=".data notCommaSpace qr_data).map pyStrip
  match print_id with
  | some pid => (some pid, original_filename, printer_name)
  | none => (none, none, none)

/-- The payload-parsing part of `extract_print_id_from_qr` in
`scan_printer.py` (lines 166-181): extract `PRINT_ID` and `PRINTER`. -/
def parseTagPayloadPrinter (qr_data : List Char) :
    Option (List Char) × Option (List Char) :=
  ((searchCapture "PRINT_ID=".data notCommaSpace qr_data).map pyStrip,
   (searchCapture "PRINTER=".data notCommaSpace qr_data).map pyStrip)

/-- `extract_print_id_from_qr` of `scan_printer_yotsuya.py` (lines 453-539) as
a function of the decoded QR payloads of page 1: no code or more than one code
yields nothing; a single code is parsed as a tag payload. -/
def extract_print_id_from_qr_yotsuya (codes : List (List Char)) :
    Option (List Char) × Option (List Char) × Option (List Char) :=
  match codes with
  | [] => (none, none, none)
  | [d] => parseTagPayload d
  | _ :: _ :: _ => (none, none, none)

/-- `extract_print_id_from_qr` of `scan_printer.py` (lines 129-188) as a
function of the decoded QR payloads of page 1. -/
def extract_print_id_from_qr_printer (codes : List (List Char)) :
    Option (List Char) × Option (List Char) :=
  match codes with
  | [] => (none, none)
  | [d] => parseTagPayloadPrinter d
  | _ :: _ :: _ => (none, none)

/-! ## The Grammar A claims -/
/-- Whether a recognized Grammar A key starts here (the spec's reading of
"the next recognized key"). -/
def isRecognizedKeyAt (s : List Char) : Bool :=
  "PRINT_ID=".data.isPrefixOf s || "FILE=".data.isPrefixOf s ||
    "PRINTER=".data.isPrefixOf s

/-- The span "up to the next recognized key or the end of the string": stop
right before a comma that introduces a recognized key. -/
def takeUntilRecognizedKey : List Char → List Char
  | [] => []
  | c :: cs =>
    if c == ',' && isRecognizedKeyAt cs then [] else c :: takeUntilRecognizedKey cs

/-- The file hint under the spec's words (for comparison with the
source-derived `parseTagPayload`): the percent-decoded value of the `FILE` key,
"where the value spans up to the next recognized key or the end of the
string". -/
def specGrammarAFileValue : List Char → Option (List Char)
  | [] => none
  | c :: cs =>
    if "FILE=".data.isPrefixOf (c :: cs) then
      some (unquote (pyStrip (takeUntilRecognizedKey ((c :: cs).drop 5))))
    else specGrammarAFileValue cs

/-! ## Stability gate: characterization -/
/-- The loop invariant of `waitLoop`: the loop (with `fuel` samples left,
starting at sample `i`, with running state `last`/`stable`) returns `true`
exactly when, within the remaining budget, either the current run of `last`
keeps repeating long enough to finish the count, or a fresh complete run of
`STABLE_CHECK_COUNT + 1` identical non-zero samples occurs, with no
file-not-found sample before that point. -/
def stableInv (sizes : Nat → Option Nat) (i fuel : Nat) (last : Int) (stable : Nat) : Prop :=
  ∃ d, d < fuel ∧ (∀ k, k ≤ d → sizes (i + k) ≠ none) ∧
    ((∃ s : Nat, 0 < s ∧ last = (s : Int) ∧ (∀ k, k ≤ d → sizes (i + k) = some s) ∧
        STABLE_CHECK_COUNT ≤ stable + d + 1) ∨
     (∃ j s : Nat, 0 < s ∧ d = j + STABLE_CHECK_COUNT ∧
        (∀ k, j ≤ k → k ≤ d → sizes (i + k) = some s)))

/-- A file whose size increases by one every `STABLE_CHECK_COUNT` samples: any
window of `STABLE_CHECK_COUNT` consecutive samples that starts a block shows
identical non-zero sizes, but no size survives `STABLE_CHECK_COUNT + 1`
consecutive samples. -/
def growingSizes (j : Nat) : Option Nat := some (j / STABLE_CHECK_COUNT + 1)

/-! ## Printer resolver (`find_printer_by_name`, `scan_printer_yotsuya.py`
lines 119-164)

`available_printers` is the enumeration of installed printers (local +
network); `config` lists the `printer_name` values of `printers.yaml`, one per
site key.  Python's substring test `a in b` is `isInfixOfCh a b`. -/
/-- Python's `needle in hay` on strings: contiguous substring test. -/
def isInfixOfCh (needle : List Char) : List Char → Bool
  | [] => needle.isEmpty
  | c :: rest => needle.isPrefixOf (c :: rest) || isInfixOfCh needle rest

/-- The `printers.yaml` mapping loop of `find_printer_by_name`: for each
configured site whose `printer_name` equals the QR hint, return the first
installed printer that matches it by substring in either direction; otherwise
keep scanning the configuration. -/
def aliasScan (qr : List Char) (avail : List (List Char)) :
    List (List Char × List Char) → Option (List Char)
  | [] => none
  | (_, cfgName) :: rest =>
    if cfgName = qr then
      match avail.find? (fun p => isInfixOfCh cfgName p || isInfixOfCh p cfgName) with
      | some p => some p
      | none => aliasScan qr avail rest
    else aliasScan qr avail rest

/-- `find_printer_by_name(qr_printer_name, available_printers)`: exact match
first, then the `printers.yaml` alias scan, then bidirectional substring
match, then one-directional substring match (subsumed by the previous step),
else `None`. -/
def find_printer_by_name (qr : List Char) (avail : List (List Char))
    (config : List (List Char × List Char)) : Option (List Char) :=
  if qr ∈ avail then some qr
  else
    match aliasScan qr avail config with
    | some p => some p
    | none =>
      match avail.find? (fun p => isInfixOfCh qr p || isInfixOfCh p qr) with
      | some p => some p
      | none =>
        match avail.find? (fun p => isInfixOfCh qr p) with
        | some p => some p
        | none => none

/-! ## Destination builder (`build_destination`, `scan_router.py` lines 230-267)

`sanitize_filename_part` strips, replaces runs of filesystem-unsafe characters
by `_` and collapses whitespace runs to one space (`re.sub` with `+`
patterns).  `build_destination` is embedded as a function of the teacher,
student, optional text name, the scan date string and the set (list) of file
names already taken in the teacher folder; the result is the chosen file name
within the teacher folder. -/
/-- The class `[\\/:*?"<>|]` of `sanitize_filename_part`. -/
def badFsChar (c : Char) : Bool :=
  c ∈ ['\\', '/', ':', '*', '?', '\"', '<', '>', '|']

/-- `re.sub(p+, r, s)` for a single replacement character: each maximal run of
`p`-characters becomes one `r`.  `prev` records whether the previous character
was part of a run. -/
def subRunsAux (p : Char → Bool) (r : Char) : Bool → List Char → List Char
  | _, [] => []
  | prev, c :: cs =>
    if p c then
      if prev then subRunsAux p r true cs else r :: subRunsAux p r true cs
    else c :: subRunsAux p r false cs

def subRuns (p : Char → Bool) (r : Char) (s : List Char) : List Char :=
  subRunsAux p r false s

/-- `sanitize_filename_part(s)`: strip, collapse unsafe-character runs to `_`,
collapse whitespace runs to a single space. -/
def sanitize_filename_part (s : List Char) : List Char :=
  subRuns pyIsSpace ' ' (subRuns badFsChar '_' (pyStrip s))

/-- One decimal digit. -/
def digitChar : Nat → Char
  | 0 => '0' | 1 => '1' | 2 => '2' | 3 => '3' | 4 => '4'
  | 5 => '5' | 6 => '6' | 7 => '7' | 8 => '8' | 9 => '9' | _ => '!'

def decReprAux : Nat → Nat → List Char
  | 0, _ => []
  | fuel + 1, n =>
    if n < 10 then [digitChar n]
    else decReprAux fuel (n / 10) ++ [digitChar (n % 10)]

/-- Python's `str(n)` for a natural number (the `f"_{n}"` suffix template). -/
def decRepr (n : Nat) : List Char := decReprAux (n + 1) n

def digitVal (c : Char) : Nat := c.toNat - 48

def decVal (l : List Char) : Nat := l.foldl (fun a c => 10 * a + digitVal c) 0

/-- The candidate name `f"{stem}_{n}{suffix}"`. -/
def candName (stem ext : List Char) (n : Nat) : List Char :=
  stem ++ ('_' :: (decRepr n ++ ext))

/-- `base_name.replace(".pdf", repl)`: Python's `str.replace` substitutes
every (left-to-right, non-overlapping) occurrence. -/
def replacePdf (repl : List Char) : List Char → List Char
  | [] => []
  | '.' :: 'p' :: 'd' :: 'f' :: rest => repl ++ replacePdf repl rest
  | c :: rest => c :: replacePdf repl rest

/-- `pathlib`'s `(Path(name).stem, Path(name).suffix)`: split at the last dot
when it is neither the first nor the last character. -/
def splitExt (name : List Char) : List Char × List Char :=
  let extLen := (name.reverse.takeWhile fun c => !(c == '.')).length
  if extLen = name.length then (name, [])
  else
    let i := name.length - 1 - extLen
    if 0 < i ∧ i < name.length - 1 then (name.take i, name.drop i) else (name, [])

/-- The `FNAME_TEMPLATE` base name
`QS_{date}_{student}{suffix}_{teacher}.pdf` with `STUDENT_SUFFIX = "さん"`,
the optional `.replace(".pdf", f"_{text}.pdf")` insertion, and the final
re-sanitization (line 251). -/
def baseNameOf (teacher student : List Char) (textName : Option (List Char))
    (date : List Char) : List Char :=
  let teacher_s := sanitize_filename_part teacher
  let student_s := sanitize_filename_part student
  let b0 := "QS_".data ++ (date ++ ('_' :: (student_s ++
    ("さん".data ++ ('_' :: (teacher_s ++ ".pdf".data))))))
  let b1 := match textName with
    | some t =>
      if t = [] then b0
      else replacePdf ('_' :: (sanitize_filename_part t ++ ".pdf".data)) b0
    | none => b0
  sanitize_filename_part b1

/-- The `while True` collision loop of `build_destination`, with explicit
fuel: try `candName stem ext n`, `candName stem ext (n+1)`, ...; the callers
always supply enough fuel for the loop to terminate. -/
def searchSuffix (taken : List (List Char)) (stem ext : List Char) :
    Nat → Nat → Option (List Char)
  | 0, _ => none
  | fuel + 1, n =>
    if candName stem ext n ∈ taken then searchSuffix taken stem ext fuel (n + 1)
    else some (candName stem ext n)

/-- `build_destination(teacher, student, text_name)`: the chosen file name in
the teacher folder, given the names already `taken` there. -/
def build_destination (teacher student : List Char) (textName : Option (List Char))
    (date : List Char) (taken : List (List Char)) : Option (List Char) :=
  let base := baseNameOf teacher student textName date
  if base ∈ taken then
    searchSuffix taken (splitExt base).1 (splitExt base).2 (taken.length + 1) 2
  else some base

/-! ## Per-file handlers as action traces

`handle_pdf` performs file moves, appends CSV outcome records
(`log_print_result`) and writes diagnostic lines through the `logging` module.
We model a run of `handle_pdf` as the list of these actions, with the results
of the external calls (suffix check, stability gate, QR extraction, artifact
lookup, printing) supplied by an environment record.  Only the
`result`/`error_message` fields of an outcome record are modelled.  The shared
`processing_files` set is a duplicate-free list of path keys. -/
inductive FileAction where
  | move (src dst : String)
  | logRec (result errMsg : String)
  | logMsg (tag detail : String)
  deriving DecidableEq

def isMoveAction : FileAction → Bool
  | .move _ _ => true
  | _ => false

def isLogRecAction : FileAction → Bool
  | .logRec _ _ => true
  | _ => false

/-- Oracle inputs for `handle_pdf` of `scan_printer.py` (lines 283-456). -/
structure PrinterEnv where
  pathKey : String
  name : String
  isPdfExt : Bool
  stable : Bool
  campus : Option String
  printerCfg : List (String × String)
  moveToProcessingOk : Bool
  qrPrintId : Option String
  qrPrinter : Option String
  artifactFound : Bool
  printOk : Bool

/-- `handle_pdf` of `scan_printer.py`: duplicate guard, suffix check,
stability gate, campus/config resolution, move into `processing`, QR
extraction, artifact lookup, print, and the final move to `done`/`error` with
one CSV record; the guard entry is discarded in the `finally` block on every
path.  Destination paths are written relative to the campus folder.  (The
printer-name override from the QR code only affects the unmodelled printer
field of the CSV record.) -/
def handle_pdf_printer (env : PrinterEnv) (processing : List String) :
    List String × List FileAction :=
  if env.pathKey ∈ processing then (processing, [.logMsg "skip" env.pathKey])
  else
    let acts : List FileAction :=
      if env.isPdfExt = false then []
      else if env.stable = false then [.logMsg "not_stable" env.pathKey]
      else match env.campus with
        | none => [.logMsg "no_campus" env.pathKey]
        | some campus =>
          match lookupMapping env.printerCfg campus with
          | none => [.logMsg "no_printer_config" campus]
          | some _ =>
            if env.moveToProcessingOk = false then
              [.logMsg "processing_move_error" env.pathKey]
            else
              match env.qrPrintId with
              | none =>
                [.move env.pathKey ("processing/" ++ env.name),
                 .move ("processing/" ++ env.name) ("error/" ++ env.name),
                 .logRec "error" "QR not found"]
              | some pid =>
                if env.artifactFound = false then
                  [.move env.pathKey ("processing/" ++ env.name),
                   .move ("processing/" ++ env.name) ("error/" ++ env.name),
                   .logRec "error" ("PDF not found: " ++ pid ++ ".pdf")]
                else if env.printOk then
                  [.move env.pathKey ("processing/" ++ env.name),
                   .move ("processing/" ++ env.name) ("done/" ++ env.name),
                   .logRec "success" ""]
                else
                  [.move env.pathKey ("processing/" ++ env.name),
                   .move ("processing/" ++ env.name) ("error/" ++ env.name),
                   .logRec "error" "Print failed"]
    ((env.pathKey :: processing).erase env.pathKey, acts)

/-- Oracle inputs for `handle_pdf` of `scan_printer_yotsuya.py`
(lines 955-1135). -/
structure YotsuyaEnv where
  pathKey : String
  name : String
  isPdfExt : Bool
  stable : Bool
  qrPrintId : Option String
  qrFile : Option String
  qrPrinter : Option String
  artifactFound : Bool
  printOk : Bool
  srcStillExists : Bool

/-- `handle_pdf` of `scan_printer_yotsuya.py`: duplicate guard, suffix check,
stability gate, QR extraction (`FILE=` required), artifact lookup, print and
the final move to `processed`/`ERROR` with one CSV record; a source file
already moved away by a racing thread is treated as success without a move.
(On-collision timestamping of destination names is not modelled.) -/
def handle_pdf_yotsuya (env : YotsuyaEnv) (processing : List String) :
    List String × List FileAction :=
  if env.pathKey ∈ processing then (processing, [.logMsg "skip" env.pathKey])
  else
    let acts : List FileAction :=
      if env.isPdfExt = false then [.logMsg "not_pdf" env.pathKey]
      else if env.stable = false then [.logMsg "not_stable" env.pathKey]
      else match env.qrFile with
        | none =>
          [.move env.pathKey ("ERROR/" ++ env.name),
           .logRec "error" "FILE not found in QR"]
        | some ofn =>
          if env.artifactFound = false then
            [.move env.pathKey ("ERROR/" ++ env.name),
             .logRec "error" ("PDF not found: " ++ ofn)]
          else if env.printOk then
            if env.srcStillExists = false then [.logRec "success" ""]
            else
              [.move env.pathKey ("processed/" ++ env.name),
               .logRec "success" ""]
          else
            [.move env.pathKey ("ERROR/" ++ env.name),
             .logRec "error" "Print failed"]
    ((env.pathKey :: processing).erase env.pathKey, acts)

/-- Outcome of `render_first_page_to_image` + `decode_qr_from_image` in
`scan_router.py`. -/
inductive RenderResult where
  | raised
  | noQr
  | payload (p : List Char)

/-- Oracle inputs for `handle_pdf` of `scan_router.py` (lines 278-320). -/
structure RouterEnv where
  pathKey : String
  isPdfExt : Bool
  stable : Bool
  render : RenderResult
  date : List Char
  taken : List (List Char)

/-- `handle_pdf` of `scan_router.py`: suffix check, stability gate, decode,
`parse_qr_payload`, `build_destination` and the rename-move; every failure
goes through `move_to_error`, which — per its own docstring — only logs and
does not move the file out of the intake folder. -/
def handle_pdf_router (env : RouterEnv) : List FileAction :=
  if env.isPdfExt = false then []
  else if env.stable = false then [.logMsg "not_stable" env.pathKey]
  else match env.render with
    | .raised => [.logMsg "EXCEPTION" env.pathKey]
    | .noQr => [.logMsg "NOQR" env.pathKey]
    | .payload p =>
      match parse_qr_payload p with
      | none => [.logMsg "BADQR" env.pathKey, .logMsg "BADQR_payload" (String.mk p)]
      | some (teacher, student, textName) =>
        match build_destination teacher student textName env.date env.taken with
        | some dst => [.move env.pathKey ("OUT/" ++ String.mk dst)]
        | none => []

/-! ## Print dispatcher (`print_pdf`, `scan_printer_yotsuya.py` lines 542-926)

The three print backends are SumatraPDF (with `-print-to` targeting and
`-print-settings "simplex,monochrome,fit"` overrides), Adobe Reader's `/t`
print command, and the temporary default-printer swap with a generic
`ShellExecute "print"`.  The installation checks, subprocess results and
`win32print` calls are oracle inputs.  (The Nup devmode adjustment and the
temporary UNC copy only add logging and temporary files; they are not
modelled.) -/
inductive Backend where
  | sumatra
  | acrobat
  | defaultSwap
  deriving DecidableEq

inductive PrintAction where
  | attempt (b : Backend)
  | setDefault (printer : List Char)
  deriving DecidableEq

structure DispatchEnv where
  printerName : List Char
  avail : List (List Char)
  config : List (List Char × List Char)
  sumatraInstalled : Bool
  acrobatInstalled : Bool
  sumatraOk : Bool
  acrobatOk : Bool
  defaultPrinter : List Char
  swapRaises : Bool
  swapPrintOk : Bool

/-- The printer-resolution prologue of `print_pdf` (lines 554-592):
`find_printer_by_name`, re-checking the resolved name against the enumerated
printers, and the bidirectional-substring retry when resolution returned
nothing. -/
def resolvePrinter (env : DispatchEnv) : Option (List Char) :=
  match find_printer_by_name env.printerName env.avail env.config with
  | some a => if a ∈ env.avail then some a else none
  | none =>
    if env.printerName ∈ env.avail then some env.printerName
    else
      match env.avail.find?
          (fun p => isInfixOfCh env.printerName p || isInfixOfCh p env.printerName) with
      | some p => some p
      | none => none

/-- The default-printer-swap fallback (lines 778-828 and 861-888): read the
current default, set the target as default, issue a generic print, and restore
the original default — the restore also runs in the exception handler, so it
happens even when the print call raises or fails. -/
def defaultSwapRun (env : DispatchEnv) (target : List Char) : Bool × List PrintAction :=
  ((!env.swapRaises && env.swapPrintOk),
   [.attempt .defaultSwap, .setDefault target, .setDefault env.defaultPrinter])

/-- `print_pdf(pdf_path, printer_name)`: resolve the printer, then — when
SumatraPDF is installed — try SumatraPDF and fall back directly to the
default-printer swap on failure; Adobe Reader is used (with the same swap
fallback) only when SumatraPDF is absent; with neither installed the dispatch
fails immediately. -/
def print_pdf_dispatch (env : DispatchEnv) : Bool × List PrintAction :=
  match resolvePrinter env with
  | none => (false, [])
  | some target =>
    if env.sumatraInstalled then
      if target ∈ env.avail then
        if env.sumatraOk then (true, [.attempt .sumatra])
        else
          ((defaultSwapRun env target).1,
            .attempt .sumatra :: (defaultSwapRun env target).2)
      else (false, [])
    else if env.acrobatInstalled then
      if target ∈ env.avail then
        if env.acrobatOk then (true, [.attempt .acrobat])
        else
          ((defaultSwapRun env target).1,
            .attempt .acrobat :: (defaultSwapRun env target).2)
      else (false, [])
    else (false, [])

/-- The backends attempted during a dispatch, in order. -/
def backendsOf (acts : List PrintAction) : List Backend :=
  acts.filterMap fun a =>
    match a with
    | .attempt b => some b
    | _ => none

/-! ## Theorems -/

theorem lookupMapping_eq_none (m : List (String × String)) (id : String) :
    lookupMapping m id = none ↔ id ∉ m.map Prod.fst := by
  induction m with
  | nil => simp [lookupMapping]
  | cons kv m ih =>
    obtain ⟨k, v⟩ := kv
    by_cases h : k = id <;> simp [lookupMapping, h, ih, Ne.symm]

theorem lookupMapping_append_single (m : List (String × String)) (id fn : String)
    (h : lookupMapping m id = none) :
    lookupMapping (m ++ [(id, fn)]) id = some fn := by
  induction m with
  | nil => simp [lookupMapping]
  | cons kv m ih =>
    obtain ⟨k, v⟩ := kv
    by_cases hk : k = id
    · simp [lookupMapping, hk] at h
    · simp [lookupMapping, hk] at h ⊢
      exact ih h

theorem lookupMapping_update (m : List (String × String)) (id fn : String) :
    lookupMapping (m.map fun kv => if kv.1 = id then (kv.1, fn) else kv) id =
      if (lookupMapping m id).isSome then some fn else none := by
  induction m with
  | nil => simp [lookupMapping]
  | cons kv m ih =>
    obtain ⟨k, v⟩ := kv
    rw [List.map_cons]
    have happ : (if (k, v).1 = id then ((k, v).1, fn) else (k, v))
        = if k = id then (k, fn) else (k, v) := rfl
    rw [happ]
    by_cases hk : k = id
    · rw [if_pos hk]; subst hk; simp [lookupMapping, ih]
    · rw [if_neg hk]; simp [lookupMapping, hk, ih]

theorem keys_update (m : List (String × String)) (id fn : String) :
    (m.map fun kv => if kv.1 = id then (kv.1, fn) else kv).map Prod.fst =
      m.map Prod.fst := by
  rw [List.map_map]
  refine List.map_congr_left fun kv _ => ?_
  by_cases hk : kv.1 = id <;> simp [hk]

theorem save_app_of_isSome (m : List (String × String)) (id f2 : String)
    (h : (lookupMapping m id).isSome) :
    lookupMapping (save_print_id_mapping_app m id f2) id = some f2 := by
  simp [save_print_id_mapping_app, h, lookupMapping_update]

/-- C5, counterexample: in `scan_printer_yotsuya.py`, saving `(id, f1)` and then
`(id, f2)` leaves the first filename in the table — the second save is skipped —
so a lookup of `id` does not return `f2` as the claim states. -/
theorem save_print_id_mapping_yotsuya_cex :
    lookupMapping
      (save_print_id_mapping_yotsuya
        (save_print_id_mapping_yotsuya [] "QS_2024_00001" "first.pdf")
        "QS_2024_00001" "second.pdf") "QS_2024_00001" = some "first.pdf" ∧
    some "first.pdf" ≠ some "second.pdf" := by
  constructor
  · decide
  · decide

/-- C5, amended: `app.py`'s `save_print_id_mapping` replaces the stored filename
for an existing identifier (last write wins), while
`scan_printer_yotsuya.py`'s `save_print_id_mapping` keeps the existing row and
skips the save (first write wins); both keep one row per identifier and rewrite
the table in full on each update. -/
theorem save_print_id_mapping_semantics (m : List (String × String)) (id f1 f2 : String) :
    lookupMapping (save_print_id_mapping_app (save_print_id_mapping_app m id f1) id f2) id
      = some f2 ∧
    lookupMapping
        (save_print_id_mapping_yotsuya (save_print_id_mapping_yotsuya m id f1) id f2) id
      = some ((lookupMapping m id).getD f1) ∧
    ((m.map Prod.fst).Nodup →
      ((save_print_id_mapping_app m id f2).map Prod.fst).Nodup ∧
      ((save_print_id_mapping_yotsuya m id f2).map Prod.fst).Nodup) := by
  refine ⟨?_, ?_, ?_⟩
  · cases hm : lookupMapping m id with
    | none =>
      have h1 : save_print_id_mapping_app m id f1 = m ++ [(id, f1)] := by
        simp [save_print_id_mapping_app, hm]
      rw [h1]
      refine save_app_of_isSome _ _ _ ?_
      rw [lookupMapping_append_single m id f1 hm]; rfl
    | some v =>
      refine save_app_of_isSome _ _ _ ?_
      have hs : (lookupMapping m id).isSome := by rw [hm]; rfl
      rw [save_app_of_isSome m id f1 hs]; rfl
  · cases hm : lookupMapping m id with
    | none =>
      have h1 : save_print_id_mapping_yotsuya m id f1 = m ++ [(id, f1)] := by
        simp [save_print_id_mapping_yotsuya, hm]
      rw [h1]
      have h2 : lookupMapping (m ++ [(id, f1)]) id = some f1 :=
        lookupMapping_append_single m id f1 hm
      have h3 : save_print_id_mapping_yotsuya (m ++ [(id, f1)]) id f2 = m ++ [(id, f1)] := by
        simp [save_print_id_mapping_yotsuya, h2]
      rw [h3, h2]; rfl
    | some v =>
      have hs : (lookupMapping m id).isSome := by rw [hm]; rfl
      have h1 : save_print_id_mapping_yotsuya m id f1 = m := by
        simp [save_print_id_mapping_yotsuya, hs]
      rw [h1]
      have h2 : save_print_id_mapping_yotsuya m id f2 = m := by
        simp [save_print_id_mapping_yotsuya, hs]
      rw [h2, hm]; rfl
  · intro hnd
    constructor
    · cases hm : lookupMapping m id with
      | none =>
        have hid : id ∉ m.map Prod.fst := (lookupMapping_eq_none m id).mp hm
        have h1 : save_print_id_mapping_app m id f2 = m ++ [(id, f2)] := by
          simp [save_print_id_mapping_app, hm]
        rw [h1, List.map_append]
        simp [List.nodup_append, hnd, hid]
      | some v =>
        have hs : (lookupMapping m id).isSome := by rw [hm]; rfl
        have h1 : save_print_id_mapping_app m id f2
            = m.map fun kv => if kv.1 = id then (kv.1, f2) else kv := by
          simp [save_print_id_mapping_app, hs]
        rw [h1, keys_update]; exact hnd
    · cases hm : lookupMapping m id with
      | none =>
        have hid : id ∉ m.map Prod.fst := (lookupMapping_eq_none m id).mp hm
        have h1 : save_print_id_mapping_yotsuya m id f2 = m ++ [(id, f2)] := by
          simp [save_print_id_mapping_yotsuya, hm]
        rw [h1, List.map_append]
        simp [List.nodup_append, hnd, hid]
      | some v =>
        have hs : (lookupMapping m id).isSome := by rw [hm]; rfl
        have h1 : save_print_id_mapping_yotsuya m id f2 = m := by
          simp [save_print_id_mapping_yotsuya, hs]
        rw [h1]; exact hnd

/-- C5, witness: the amended behaviour evaluated on a concrete one-row table. -/
theorem save_print_id_mapping_semantics_witness :
    lookupMapping
        (save_print_id_mapping_app (save_print_id_mapping_app [("A", "x")] "B" "f1") "B" "f2")
        "B" = some "f2" ∧
    lookupMapping
        (save_print_id_mapping_yotsuya
          (save_print_id_mapping_yotsuya [("A", "x")] "B" "f1") "B" "f2") "B" = some "f1" ∧
    (((save_print_id_mapping_app [("A", "x")] "B" "f2").map Prod.fst).Nodup ∧
      ((save_print_id_mapping_yotsuya [("A", "x")] "B" "f2").map Prod.fst).Nodup) := by
  have h := save_print_id_mapping_semantics [("A", "x")] "B" "f1" "f2"
  refine ⟨h.1, ?_, h.2.2 (by decide)⟩
  have h2 := h.2.1
  simpa using h2

theorem mem_dropWhile_iff (q : Char → Bool) (c : Char) (hq : q c = false)
    (l : List Char) : c ∈ l.dropWhile q ↔ c ∈ l := by
  induction l with
  | nil => simp
  | cons x t ih =>
    by_cases hx : q x
    · rw [List.dropWhile_cons_of_pos hx, ih]
      constructor
      · exact fun h => List.mem_cons_of_mem x h
      · intro h
        rcases List.mem_cons.mp h with h | h
        · subst h; rw [hx] at hq; cases hq
        · exact h
    · rw [List.dropWhile_cons_of_neg hx]

theorem mem_pyStrip_iff (c : Char) (hq : pyIsSpace c = false) (s : List Char) :
    c ∈ pyStrip s ↔ c ∈ s := by
  unfold pyStrip
  rw [List.mem_reverse, mem_dropWhile_iff _ _ hq, List.mem_reverse,
    mem_dropWhile_iff _ _ hq]

/-- C8: the Grammar B parser succeeds exactly on payloads that contain a comma
and whose first two trimmed comma-separated fields are non-empty; an optional
third field becomes the text name; `山田太郎,鈴木` parses to student `山田太郎`,
teacher `鈴木` and no text name. -/
theorem parse_qr_payload_spec :
    (∀ payload : List Char,
      (parse_qr_payload payload).isSome = true ↔
        (',' ∈ payload ∧
          (((pyStrip payload).splitOn ',').map pyStrip).getD 0 [] ≠ [] ∧
          (((pyStrip payload).splitOn ',').map pyStrip).getD 1 [] ≠ [])) ∧
    parse_qr_payload "山田太郎,鈴木".data = some ("鈴木".data, "山田太郎".data, none) ∧
    parse_qr_payload "山田太郎,鈴木,数の性質".data
      = some ("鈴木".data, "山田太郎".data, some "数の性質".data) := by
  refine ⟨fun payload => ?_, by decide, by decide⟩
  have hcomma : (',' ∈ pyStrip payload) ↔ (',' ∈ payload) :=
    mem_pyStrip_iff ',' (by decide) payload
  unfold parse_qr_payload
  by_cases hc : ',' ∈ pyStrip payload
  · rw [if_pos hc]
    rcases hf : ((pyStrip payload).splitOn ',').map pyStrip with - | ⟨f1, - | ⟨f2, rest⟩⟩
    · simp [hf, hcomma.symm]
    · simp [hf, hcomma.symm]
    · rcases rest with - | ⟨f3, rest⟩
      · by_cases h12 : f1 = [] ∨ f2 = []
        · simp [hf, h12]
          intro _
          rcases h12 with h | h <;> simp [h]
        · push_neg at h12
          simp [hf, h12.1, h12.2, hcomma.mp hc]
      · by_cases h12 : f1 = [] ∨ f2 = []
        · simp [hf, h12]
          intro _
          rcases h12 with h | h <;> simp [h]
        · push_neg at h12
          simp [hf, h12.1, h12.2, hcomma.mp hc]
  · rw [if_neg hc]
    simp
    intro h
    exact absurd (hcomma.mpr h) hc

/-- C10: when more than one QR code is detected on the rendered first page,
both readers return no payload at all (decode failure) instead of picking one
of the detected codes. -/
theorem multi_qr_rejected (codes : List (List Char)) (h : 2 ≤ codes.length) :
    extract_print_id_from_qr_printer codes = (none, none) ∧
    extract_print_id_from_qr_yotsuya codes = (none, none, none) := by
  rcases codes with - | ⟨a, - | ⟨b, rest⟩⟩
  · simp at h
  · simp at h
  · exact ⟨rfl, rfl⟩

/-- C10, witness: two detected codes, both individually well-formed, are
rejected. -/
theorem multi_qr_rejected_witness :
    2 ≤ ([("PRINT_ID=A".data : List Char), "PRINT_ID=B".data]).length ∧
    extract_print_id_from_qr_printer ["PRINT_ID=A".data, "PRINT_ID=B".data]
      = (none, none) ∧
    extract_print_id_from_qr_yotsuya ["PRINT_ID=A".data, "PRINT_ID=B".data]
      = (none, none, none) := by
  have h := multi_qr_rejected ["PRINT_ID=A".data, "PRINT_ID=B".data] (by decide)
  exact ⟨by decide, h.1, h.2⟩

/-! ## Lemmas about `searchCapture` -/
theorem searchCapture_cons_of_neg {key : List Char} {ok : Char → Bool} {c : Char}
    {cs : List Char} (h : key.isPrefixOf (c :: cs) = false) :
    searchCapture key ok (c :: cs) = searchCapture key ok cs := by
  simp [searchCapture, h]

theorem isPrefixOf_append_self (key r : List Char) :
    key.isPrefixOf (key ++ r) = true := by
  induction key with
  | nil => simp [List.isPrefixOf]
  | cons c cs ih => simp [List.isPrefixOf, ih]

theorem isPrefixOf_cons_false {k c : Char} (ks cs : List Char) (h : k ≠ c) :
    (k :: ks).isPrefixOf (c :: cs) = false := by
  simp [List.isPrefixOf, h]

theorem takeWhile_append_all {p : Char → Bool} {a : List Char} (b : List Char)
    (h : ∀ c ∈ a, p c = true) :
    (a ++ b).takeWhile p = a ++ b.takeWhile p := by
  induction a with
  | nil => rfl
  | cons c a ih =>
    have hc : p c = true := h c (List.mem_cons_self c a)
    simp only [List.cons_append, List.takeWhile_cons, hc, if_true]
    rw [ih fun x hx => h x (List.mem_cons_of_mem c hx)]

theorem takeWhile_eq_self_of_all {p : Char → Bool} {a : List Char}
    (h : ∀ c ∈ a, p c = true) : a.takeWhile p = a := by
  have := takeWhile_append_all (p := p) (a := a) [] h
  simpa using this

/-- `searchCapture` finds the match at the very front of the string. -/
theorem searchCapture_found (key ok : _) (l : List Char) (hne : l ≠ [])
    (h : key.isPrefixOf l = true)
    (hcap : (l.drop key.length).takeWhile ok ≠ []) :
    searchCapture key ok l = some ((l.drop key.length).takeWhile ok) := by
  cases l with
  | nil => cases hne rfl
  | cons c cs => simp [searchCapture, h, hcap]

/-- A key that mentions `=` cannot match inside a `=`-free window `w` that is
terminated by a separator not occurring in the key. -/
theorem key_not_prefixOf_window (key w s : List Char) (sep : Char)
    (hkeyEq : '=' ∈ key) (hkeySep : sep ∉ key) (hw : '=' ∉ w) :
    key.isPrefixOf (w ++ sep :: s) = false := by
  induction w generalizing key with
  | nil =>
    cases key with
    | nil => cases hkeyEq
    | cons k ks =>
      refine isPrefixOf_cons_false ks s fun hk => ?_
      exact hkeySep (hk ▸ List.mem_cons_self k ks)
  | cons c w ih =>
    cases key with
    | nil => cases hkeyEq
    | cons k ks =>
      by_cases hkc : k = c
      · subst hkc
        have h1 : ks.isPrefixOf (w ++ sep :: s) = false := by
          refine ih ks ?_ ?_ ?_
          · rcases List.mem_cons.mp hkeyEq with h | h
            · exact absurd (h ▸ List.mem_cons_self k w) hw
            · exact h
          · exact fun h => hkeySep (List.mem_cons_of_mem k h)
          · exact fun h => hw (List.mem_cons_of_mem k h)
        simp [List.isPrefixOf, h1]
      · exact List.cons_append c w (sep :: s) ▸ isPrefixOf_cons_false ks (w ++ sep :: s) hkc

/-- Scanning skips a block of characters that never start a key match because
the key's head character does not occur in the block. -/
theorem searchCapture_skip_heads (k0 : Char) (ks : List Char) (ok : Char → Bool)
    (pre s : List Char) (hpre : k0 ∉ pre) :
    searchCapture (k0 :: ks) ok (pre ++ s) = searchCapture (k0 :: ks) ok s := by
  induction pre with
  | nil => rfl
  | cons c pre ih =>
    have hk0c : k0 ≠ c := fun h => hpre (h ▸ List.mem_cons_self c pre)
    rw [List.cons_append,
      searchCapture_cons_of_neg (isPrefixOf_cons_false ks (pre ++ s) hk0c)]
    exact ih fun h => hpre (List.mem_cons_of_mem c h)

/-- Scanning skips a `=`-free window terminated by a separator that does not
occur in the (`=`-containing) key. -/
theorem searchCapture_skip_window (key : List Char) (ok : Char → Bool) (sep : Char)
    (w s : List Char) (hkeyEq : '=' ∈ key) (hkeySep : sep ∉ key) (hw : '=' ∉ w) :
    searchCapture key ok (w ++ sep :: s) = searchCapture key ok s := by
  induction w with
  | nil =>
    rw [List.nil_append,
      searchCapture_cons_of_neg (key_not_prefixOf_window key [] s sep hkeyEq hkeySep (by simp))]
  | cons c w ih =>
    have h0 : key.isPrefixOf (c :: (w ++ sep :: s)) = false := by
      have := key_not_prefixOf_window key (c :: w) s sep hkeyEq hkeySep hw
      simpa using this
    rw [List.cons_append, searchCapture_cons_of_neg h0]
    exact ih fun h => hw (List.mem_cons_of_mem c h)

theorem pyStrip_eq_self {l : List Char} (h : ∀ c ∈ l, pyIsSpace c = false) :
    pyStrip l = l := by
  have hdrop : ∀ m : List Char, (∀ c ∈ m, pyIsSpace c = false) → m.dropWhile pyIsSpace = m := by
    intro m hm
    cases m with
    | nil => rfl
    | cons c t => exact List.dropWhile_cons_of_neg (by simp [hm c (List.mem_cons_self c t)])
  unfold pyStrip
  rw [hdrop l h, hdrop l.reverse fun c hc => h c (List.mem_reverse.mp hc), List.reverse_reverse]

/-- C2, counterexample: on `PRINT_ID=X,FILE=a,b` the parser's file hint is `a`
(the `FILE` value stops at the next comma), while under the claim's reading the
value spans to the end of the string (no recognized key follows), giving
`a,b`. -/
theorem grammarA_file_span_cex :
    (parseTagPayload "PRINT_ID=X,FILE=a,b".data).2.1 = some "a".data ∧
    specGrammarAFileValue "PRINT_ID=X,FILE=a,b".data = some "a,b".data ∧
    some ("a".data : List Char) ≠ some "a,b".data := by
  refine ⟨by decide, by decide, by decide⟩

/-- C2, amended: for a canonical Grammar A payload
`PRINT_ID=<id>,FILE=<enc>` (identifier non-empty without commas, whitespace or
`=`; encoded hint non-empty without commas), the parser extracts the identifier
as the `PRINT_ID` value and the file hint as the percent-decoded `FILE` value,
the `FILE` value spanning up to the next comma or the end of the string. -/
theorem parseTagPayload_canonical (id enc : List Char)
    (hid : id ≠ []) (hidc : ∀ c ∈ id, notCommaSpace c = true) (hideq : '=' ∉ id)
    (henc : enc ≠ []) (hencc : ∀ c ∈ enc, notComma c = true) :
    (parseTagPayload ("PRINT_ID=".data ++ (id ++ (',' :: ("FILE=".data ++ enc))))).1
      = some id ∧
    (parseTagPayload ("PRINT_ID=".data ++ (id ++ (',' :: ("FILE=".data ++ enc))))).2.1
      = some (unquote (pyStrip enc)) := by
  have hidspace : ∀ c ∈ id, pyIsSpace c = false := by
    intro c hc
    have := hidc c hc
    simp [notCommaSpace] at this
    exact this.2
  -- the PRINT_ID search succeeds at position 0 with capture `id`
  have hpid : searchCapture "PRINT_ID=".data notCommaSpace
      ("PRINT_ID=".data ++ (id ++ (',' :: ("FILE=".data ++ enc)))) = some id := by
    have hcap : (("PRINT_ID=".data ++ (id ++ (',' :: ("FILE=".data ++ enc)))).drop
        "PRINT_ID=".data.length).takeWhile notCommaSpace = id := by
      rw [List.drop_left, takeWhile_append_all _ hidc,
        List.takeWhile_cons_of_neg (by decide), List.append_nil]
    rw [searchCapture_found _ _ _ (by simp) (isPrefixOf_append_self _ _)
      (by rw [hcap]; exact hid), hcap]
  -- the FILE search skips `PRINT_ID=<id>,` and succeeds with capture `enc`
  have hfile : searchCapture "FILE=".data notComma
      ("PRINT_ID=".data ++ (id ++ (',' :: ("FILE=".data ++ enc)))) = some enc := by
    have h1 : searchCapture "FILE=".data notComma
        ("PRINT_ID=".data ++ (id ++ (',' :: ("FILE=".data ++ enc))))
        = searchCapture "FILE=".data notComma (id ++ (',' :: ("FILE=".data ++ enc))) := by
      have hF : 'F' ∉ "PRINT_ID=".data := by decide
      have := searchCapture_skip_heads 'F' "ILE=".data notComma "PRINT_ID=".data
        (id ++ (',' :: ("FILE=".data ++ enc))) hF
      exact this
    have h2 : searchCapture "FILE=".data notComma (id ++ (',' :: ("FILE=".data ++ enc)))
        = searchCapture "FILE=".data notComma ("FILE=".data ++ enc) :=
      searchCapture_skip_window "FILE=".data notComma ',' id ("FILE=".data ++ enc)
        (by decide) (by decide) hideq
    have hcap : (("FILE=".data ++ enc).drop "FILE=".data.length).takeWhile notComma
        = enc := by
      rw [List.drop_left, takeWhile_eq_self_of_all hencc]
    rw [h1, h2, searchCapture_found _ _ _ (by simp) (isPrefixOf_append_self _ _)
      (by rw [hcap]; exact henc), hcap]
  constructor
  · show (parseTagPayload _).1 = _
    unfold parseTagPayload
    rw [hpid]
    simp [pyStrip_eq_self hidspace]
  · show (parseTagPayload _).2.1 = _
    unfold parseTagPayload
    rw [hpid, hfile]
    simp [pyStrip_eq_self hidspace]

/-- C2, witness: the claim's own example `PRINT_ID=QS_2024_ABCDE,FILE=math%2Ffile.pdf`
yields identifier `QS_2024_ABCDE` and decoded hint `math/file.pdf` (and no
printer hint). -/
theorem parseTagPayload_canonical_witness :
    ("QS_2024_ABCDE".data ≠ [] ∧ "math%2Ffile.pdf".data ≠ []) ∧
    (parseTagPayload "PRINT_ID=QS_2024_ABCDE,FILE=math%2Ffile.pdf".data).1
      = some "QS_2024_ABCDE".data ∧
    (parseTagPayload "PRINT_ID=QS_2024_ABCDE,FILE=math%2Ffile.pdf".data).2.1
      = some "math/file.pdf".data ∧
    (parseTagPayload "PRINT_ID=QS_2024_ABCDE,FILE=math%2Ffile.pdf".data).2.2 = none := by
  have h := parseTagPayload_canonical "QS_2024_ABCDE".data "math%2Ffile.pdf".data
    (by decide) (by decide) (by decide) (by decide) (by decide)
  have hpayload : "PRINT_ID=QS_2024_ABCDE,FILE=math%2Ffile.pdf".data
      = "PRINT_ID=".data ++ ("QS_2024_ABCDE".data ++
          (',' :: ("FILE=".data ++ "math%2Ffile.pdf".data))) := by decide
  refine ⟨⟨by decide, by decide⟩, ?_, ?_, by decide⟩
  · rw [hpayload]; exact h.1
  · rw [hpayload, h.2]; decide

theorem waitLoop_none_eq (sizes : Nat → Option Nat) (i fuel : Nat) (last : Int)
    (stable : Nat) (h : sizes i = none) :
    waitLoop sizes i (fuel + 1) last stable = false := by
  have hstep : waitLoop sizes i (fuel + 1) last stable =
      (match sizes i with
      | none => false
      | some size =>
        if (size : Int) = last ∧ 0 < size then
          if STABLE_CHECK_COUNT ≤ stable + 1 then true
          else waitLoop sizes (i + 1) fuel last (stable + 1)
        else waitLoop sizes (i + 1) fuel (size : Int) 0) := rfl
  rw [hstep, h]

theorem waitLoop_some_eq (sizes : Nat → Option Nat) (i fuel : Nat) (last : Int)
    (stable size : Nat) (h : sizes i = some size) :
    waitLoop sizes i (fuel + 1) last stable =
      (if (size : Int) = last ∧ 0 < size then
        if STABLE_CHECK_COUNT ≤ stable + 1 then true
        else waitLoop sizes (i + 1) fuel last (stable + 1)
      else waitLoop sizes (i + 1) fuel (size : Int) 0) := by
  have hstep : waitLoop sizes i (fuel + 1) last stable =
      (match sizes i with
      | none => false
      | some size =>
        if (size : Int) = last ∧ 0 < size then
          if STABLE_CHECK_COUNT ≤ stable + 1 then true
          else waitLoop sizes (i + 1) fuel last (stable + 1)
        else waitLoop sizes (i + 1) fuel (size : Int) 0) := rfl
  rw [hstep, h]

theorem waitLoop_iff (sizes : Nat → Option Nat) :
    ∀ (fuel i : Nat) (last : Int) (stable : Nat),
      waitLoop sizes i fuel last stable = true ↔ stableInv sizes i fuel last stable := by
  have hS : 0 < STABLE_CHECK_COUNT := by decide
  intro fuel
  induction fuel with
  | zero =>
    intro i last stable
    constructor
    · intro h; simp [waitLoop] at h
    · rintro ⟨d, hd, -⟩; exact absurd hd (Nat.not_lt_zero d)
  | succ fuel ih =>
    intro i last stable
    cases hsi : sizes i with
    | none =>
      rw [waitLoop_none_eq sizes i fuel last stable hsi]
      constructor
      · intro h; cases h
      · rintro ⟨d, hd, hnone, -⟩
        exact absurd (by simpa using hsi) (hnone 0 (Nat.zero_le d))
    | some size =>
      rw [waitLoop_some_eq sizes i fuel last stable size hsi]
      by_cases hg : (size : Int) = last ∧ 0 < size
      · rw [if_pos hg]
        by_cases hst : STABLE_CHECK_COUNT ≤ stable + 1
        · rw [if_pos hst]
          constructor
          · intro _
            refine ⟨0, by omega, ?_, Or.inl ⟨size, hg.2, hg.1.symm, ?_, by omega⟩⟩
            · intro k hk
              have hk0 : k = 0 := Nat.le_zero.mp hk
              subst hk0; simp [hsi]
            · intro k hk
              have hk0 : k = 0 := Nat.le_zero.mp hk
              subst hk0; simpa using hsi
          · intro _; rfl
        · rw [if_neg hst, ih (i + 1) last (stable + 1)]
          constructor
          · rintro ⟨d', hd', hnone', hcase'⟩
            refine ⟨d' + 1, by omega, ?_, ?_⟩
            · intro k hk
              cases k with
              | zero => simp [hsi]
              | succ k' =>
                have := hnone' k' (by omega)
                rw [show i + (k' + 1) = (i + 1) + k' by omega]
                exact this
            · rcases hcase' with ⟨s, hs, hlast, hrun', hcnt'⟩ | ⟨j', s, hs, hdj', hrun'⟩
              · refine Or.inl ⟨s, hs, hlast, ?_, by omega⟩
                intro k hk
                cases k with
                | zero =>
                  have hss : size = s := by
                    have hcast : (size : Int) = (s : Int) := hg.1.trans hlast
                    exact_mod_cast hcast
                  simpa [hss] using hsi
                | succ k' =>
                  have := hrun' k' (by omega)
                  rw [show i + (k' + 1) = (i + 1) + k' by omega]
                  exact this
              · refine Or.inr ⟨j' + 1, s, hs, by omega, ?_⟩
                intro k hk1 hk2
                cases k with
                | zero => omega
                | succ k' =>
                  have := hrun' k' (by omega) (by omega)
                  rw [show i + (k' + 1) = (i + 1) + k' by omega]
                  exact this
          · rintro ⟨d, hd, hnone, hcase⟩
            rcases hcase with ⟨s, hs, hlast, hrun, hcnt⟩ | ⟨j, s, hs, hdj, hrun⟩
            · cases d with
              | zero => omega
              | succ d' =>
                refine ⟨d', by omega, ?_, Or.inl ⟨s, hs, hlast, ?_, by omega⟩⟩
                · intro k hk
                  have := hnone (k + 1) (by omega)
                  rw [show (i + 1) + k = i + (k + 1) by omega]
                  exact this
                · intro k hk
                  have := hrun (k + 1) (by omega)
                  rw [show (i + 1) + k = i + (k + 1) by omega]
                  exact this
            · cases j with
              | zero =>
                have hss : s = size := by
                  have h0 := hrun 0 (Nat.le_refl 0) (by omega)
                  rw [show i + 0 = i by omega, hsi] at h0
                  exact (Option.some.inj h0).symm
                refine ⟨STABLE_CHECK_COUNT - 1, by omega,
                  ?_, Or.inl ⟨s, hs, ?_, ?_, by omega⟩⟩
                · intro k hk
                  have := hrun (k + 1) (by omega) (by omega)
                  rw [show (i + 1) + k = i + (k + 1) by omega, this]
                  simp
                · rw [← hg.1, hss]
                · intro k hk
                  have := hrun (k + 1) (by omega) (by omega)
                  rw [show (i + 1) + k = i + (k + 1) by omega]
                  exact this
              | succ j' =>
                refine ⟨d - 1, by omega, ?_, Or.inr ⟨j', s, hs, by omega, ?_⟩⟩
                · intro k hk
                  have := hnone (k + 1) (by omega)
                  rw [show (i + 1) + k = i + (k + 1) by omega]
                  exact this
                · intro k hk1 hk2
                  have := hrun (k + 1) (by omega) (by omega)
                  rw [show (i + 1) + k = i + (k + 1) by omega]
                  exact this
      · rw [if_neg hg, ih (i + 1) (size : Int) 0]
        constructor
        · rintro ⟨d', hd', hnone', hcase'⟩
          rcases hcase' with ⟨s, hs, hlast', hrun', hcnt'⟩ | ⟨j', s, hs, hdj', hrun'⟩
          · -- a fresh complete run `i .. i + STABLE_CHECK_COUNT`
            have hss : size = s := by exact_mod_cast hlast'
            have hrunAtI : ∀ k, k ≤ STABLE_CHECK_COUNT → sizes (i + k) = some s := by
              intro k hk
              cases k with
              | zero => simpa [hss] using hsi
              | succ k' =>
                have := hrun' k' (by omega)
                rw [show i + (k' + 1) = (i + 1) + k' by omega]
                exact this
            refine ⟨STABLE_CHECK_COUNT, by omega, ?_,
              Or.inr ⟨0, s, hs, by omega, fun k _ hk2 => hrunAtI k hk2⟩⟩
            intro k hk
            rw [hrunAtI k hk]
            simp
          · refine ⟨d' + 1, by omega, ?_, Or.inr ⟨j' + 1, s, hs, by omega, ?_⟩⟩
            · intro k hk
              cases k with
              | zero => simp [hsi]
              | succ k' =>
                have := hnone' k' (by omega)
                rw [show i + (k' + 1) = (i + 1) + k' by omega]
                exact this
            · intro k hk1 hk2
              cases k with
              | zero => omega
              | succ k' =>
                have := hrun' k' (by omega) (by omega)
                rw [show i + (k' + 1) = (i + 1) + k' by omega]
                exact this
        · rintro ⟨d, hd, hnone, hcase⟩
          rcases hcase with ⟨s, hs, hlast, hrun, hcnt⟩ | ⟨j, s, hs, hdj, hrun⟩
          · exfalso
            have h0 := hrun 0 (Nat.zero_le d)
            rw [show i + 0 = i by omega, hsi] at h0
            have hss : size = s := Option.some.inj h0
            exact hg ⟨by rw [hss, hlast], by omega⟩
          · cases j with
            | zero =>
              have hss : s = size := by
                have h0 := hrun 0 (Nat.le_refl 0) (by omega)
                rw [show i + 0 = i by omega, hsi] at h0
                exact (Option.some.inj h0).symm
              refine ⟨STABLE_CHECK_COUNT - 1, by omega,
                ?_, Or.inl ⟨s, hs, by rw [hss], ?_, by omega⟩⟩
              · intro k hk
                have := hrun (k + 1) (by omega) (by omega)
                rw [show (i + 1) + k = i + (k + 1) by omega, this]
                simp
              · intro k hk
                have := hrun (k + 1) (by omega) (by omega)
                rw [show (i + 1) + k = i + (k + 1) by omega]
                exact this
            | succ j' =>
              refine ⟨d - 1, by omega, ?_, Or.inr ⟨j', s, hs, by omega, ?_⟩⟩
              · intro k hk
                have := hnone (k + 1) (by omega)
                rw [show (i + 1) + k = i + (k + 1) by omega]
                exact this
              · intro k hk1 hk2
                have := hrun (k + 1) (by omega) (by omega)
                rw [show (i + 1) + k = i + (k + 1) by omega]
                exact this

/-- C1, amended: the stability gate succeeds iff, within its 30-sample budget
(samples every 0.5 s), some size sample is followed by `STABLE_CHECK_COUNT = 6`
consecutive further samples that are identical to it and non-zero — i.e. 7
identical consecutive non-zero samples, a 3-second quiet window — with no
file-not-found before that run; in particular it fails when the file
disappears, when the budget is exhausted, and a still-growing file is never
declared stable. -/
theorem wait_until_file_stable_iff (sizes : Nat → Option Nat) :
    wait_until_file_stable sizes = true ↔
      ∃ i s, i + STABLE_CHECK_COUNT < STABLE_ATTEMPTS ∧ 0 < s ∧
        (∀ k, k ≤ STABLE_CHECK_COUNT → sizes (i + k) = some s) ∧
        (∀ k, k < i → sizes k ≠ none) := by
  have hS : 0 < STABLE_CHECK_COUNT := by decide
  unfold wait_until_file_stable
  rw [waitLoop_iff]
  unfold stableInv
  constructor
  · rintro ⟨d, hd, hnone, hcase⟩
    rcases hcase with ⟨s, hs, hlast, -, -⟩ | ⟨j, s, hs, hdj, hrun⟩
    · exfalso; omega
    · refine ⟨j, s, by omega, hs, ?_, ?_⟩
      · intro k hk
        have := hrun (j + k) (by omega) (by omega)
        simpa using this
      · intro k hk
        have := hnone k (by omega)
        simpa using this
  · rintro ⟨i, s, hi, hs, hrun, hnone⟩
    refine ⟨i + STABLE_CHECK_COUNT, by omega, ?_, Or.inr ⟨i, s, hs, rfl, ?_⟩⟩
    · intro k hk
      by_cases hki : k < i
      · have := hnone k hki
        simpa using this
      · have := hrun (k - i) (by omega)
        rw [show (0 : Nat) + k = i + (k - i) by omega, this]
        simp
    · intro k hk1 hk2
      have := hrun (k - i) (by omega)
      rw [show (0 : Nat) + k = i + (k - i) by omega]
      exact this

/-- C1, counterexample: `growingSizes` exhibits `N = 6` consecutive identical
non-zero size samples well inside the budget (samples 0..5 all read size 1) and
the file never disappears, yet the gate returns failure — the code only
declares stability after a sample is repeated unchanged 6 further times, i.e.
after 7 identical samples. -/
theorem wait_until_file_stable_cex :
    (∃ i s, i + (STABLE_CHECK_COUNT - 1) < STABLE_ATTEMPTS ∧ 0 < s ∧
      (∀ k, k ≤ STABLE_CHECK_COUNT - 1 → growingSizes (i + k) = some s)) ∧
    (∀ k, k < STABLE_ATTEMPTS → growingSizes k ≠ none) ∧
    wait_until_file_stable growingSizes = false := by
  refine ⟨⟨0, 1, by decide, by decide, by decide⟩, ?_, by decide⟩
  intro k _
  simp [growingSizes]

theorem aliasScan_eq_none_iff (qr : List Char) (avail : List (List Char))
    (config : List (List Char × List Char)) :
    aliasScan qr avail config = none ↔
      ∀ ck cn, (ck, cn) ∈ config → cn = qr →
        avail.find? (fun p => isInfixOfCh cn p || isInfixOfCh p cn) = none := by
  induction config with
  | nil => simp [aliasScan]
  | cons e rest ih =>
    obtain ⟨ck, cn⟩ := e
    have hstep : aliasScan qr avail ((ck, cn) :: rest) =
        (if cn = qr then
          match avail.find? (fun p => isInfixOfCh cn p || isInfixOfCh p cn) with
          | some p => some p
          | none => aliasScan qr avail rest
        else aliasScan qr avail rest) := rfl
    rw [hstep]
    by_cases hcn : cn = qr
    · rw [if_pos hcn]
      cases hf : avail.find? (fun p => isInfixOfCh cn p || isInfixOfCh p cn) with
      | some p =>
        constructor
        · intro h; simp at h
        · intro h
          exfalso
          have hc := h ck cn (List.mem_cons_self _ _) hcn
          rw [hc] at hf
          cases hf
      | none =>
        change aliasScan qr avail rest = none ↔ _
        rw [ih]
        constructor
        · intro h ck' cn' hmem hcn'
          rcases List.mem_cons.mp hmem with he | he
          · cases he; exact hf
          · exact h ck' cn' he hcn'
        · intro h ck' cn' hmem hcn'
          exact h ck' cn' (List.mem_cons_of_mem _ hmem) hcn'
    · rw [if_neg hcn, ih]
      constructor
      · intro h ck' cn' hmem hcn'
        rcases List.mem_cons.mp hmem with he | he
        · cases he; exact absurd hcn' hcn
        · exact h ck' cn' he hcn'
      · intro h ck' cn' hmem hcn'
        exact h ck' cn' (List.mem_cons_of_mem _ hmem) hcn'

theorem find_printer_eq_none_parts (qr : List Char) (avail : List (List Char))
    (config : List (List Char × List Char)) (hq : qr ∉ avail) :
    find_printer_by_name qr avail config = none ↔
      aliasScan qr avail config = none ∧
      avail.find? (fun p => isInfixOfCh qr p || isInfixOfCh p qr) = none ∧
      avail.find? (fun p => isInfixOfCh qr p) = none := by
  unfold find_printer_by_name
  rw [if_neg hq]
  cases h1 : aliasScan qr avail config with
  | some p => simp [h1]
  | none =>
    cases h2 : avail.find? (fun p => isInfixOfCh qr p || isInfixOfCh p qr) with
    | some p => simp [h2]
    | none =>
      cases h3 : avail.find? (fun p => isInfixOfCh qr p) with
      | some p => simp [h3]
      | none => simp

/-- C6: the printer resolver returns the hint itself whenever it occurs
verbatim among the installed printers — exact match outranks the alias and
substring stages, which are only consulted otherwise — and it returns no
printer exactly when exact matching, the configured-alias scan and
bidirectional substring matching all fail. -/
theorem find_printer_by_name_spec (qr : List Char) (avail : List (List Char))
    (config : List (List Char × List Char)) :
    (qr ∈ avail → find_printer_by_name qr avail config = some qr) ∧
    (find_printer_by_name qr avail config = none ↔
      (qr ∉ avail ∧
       (∀ ck cn, (ck, cn) ∈ config → cn = qr →
          ∀ p ∈ avail, ¬(isInfixOfCh cn p = true ∨ isInfixOfCh p cn = true)) ∧
       (∀ p ∈ avail, ¬(isInfixOfCh qr p = true ∨ isInfixOfCh p qr = true)))) := by
  constructor
  · intro h
    simp [find_printer_by_name, h]
  · by_cases hq : qr ∈ avail
    · simp [find_printer_by_name, hq]
    · rw [find_printer_eq_none_parts qr avail config hq]
      constructor
      · rintro ⟨h1, h2, -⟩
        refine ⟨hq, ?_, ?_⟩
        · intro ck cn hmem hcn p hp
          have := (aliasScan_eq_none_iff qr avail config).mp h1 ck cn hmem hcn
          have := List.find?_eq_none.mp this p hp
          simpa using this
        · intro p hp
          have := List.find?_eq_none.mp h2 p hp
          simpa using this
      · rintro ⟨-, h1, h2⟩
        refine ⟨?_, ?_, ?_⟩
        · rw [aliasScan_eq_none_iff]
          intro ck cn hmem hcn
          rw [List.find?_eq_none]
          intro p hp
          simpa using h1 ck cn hmem hcn p hp
        · rw [List.find?_eq_none]
          intro p hp
          simpa using h2 p hp
        · rw [List.find?_eq_none]
          intro p hp
          intro hcon
          exact h2 p hp (Or.inl (by simpa using hcon))

/-- C6, witness: with installed printers `["RICOH sub", "RICOH"]`, the hint
`RICOH` matches `RICOH sub` by substring earlier in enumeration order but the
exact match `RICOH` still wins; a hint matching nothing resolves to no
printer. -/
theorem find_printer_by_name_spec_witness :
    "RICOH".data ∈ [("RICOH sub".data : List Char), "RICOH".data] ∧
    find_printer_by_name "RICOH".data ["RICOH sub".data, "RICOH".data] []
      = some "RICOH".data ∧
    find_printer_by_name "XEROX".data ["RICOH sub".data, "RICOH".data] [] = none := by
  refine ⟨by decide, ?_, ?_⟩
  · exact (find_printer_by_name_spec "RICOH".data ["RICOH sub".data, "RICOH".data] []).1
      (by decide)
  · exact (find_printer_by_name_spec "XEROX".data
      ["RICOH sub".data, "RICOH".data] []).2.mpr
      ⟨by decide, fun ck cn h => absurd h (List.not_mem_nil _), by decide⟩

theorem decVal_append_digit (l : List Char) (c : Char) :
    decVal (l ++ [c]) = 10 * decVal l + digitVal c := by
  unfold decVal
  rw [List.foldl_append]
  rfl

theorem digitVal_digitChar (n : Nat) (h : n < 10) : digitVal (digitChar n) = n := by
  interval_cases n <;> rfl

theorem decVal_decReprAux : ∀ fuel n, n < fuel → decVal (decReprAux fuel n) = n := by
  intro fuel
  induction fuel with
  | zero => intro n h; omega
  | succ fuel ih =>
    intro n h
    have hstep : decReprAux (fuel + 1) n =
        (if n < 10 then [digitChar n]
         else decReprAux fuel (n / 10) ++ [digitChar (n % 10)]) := rfl
    by_cases h10 : n < 10
    · rw [hstep, if_pos h10]
      show 10 * 0 + digitVal (digitChar n) = n
      rw [digitVal_digitChar n h10]
      omega
    · have hdivlt : n / 10 < n := Nat.div_lt_self (by omega) (by omega)
      rw [hstep, if_neg h10, decVal_append_digit, ih _ (by omega),
        digitVal_digitChar _ (Nat.mod_lt _ (by omega))]
      omega

theorem decRepr_injective (m n : Nat) (h : decRepr m = decRepr n) : m = n := by
  have hm := decVal_decReprAux (m + 1) m (by omega)
  have hn := decVal_decReprAux (n + 1) n (by omega)
  unfold decRepr at h
  rw [← hm, ← hn, h]

theorem candName_inj (stem ext : List Char) {m n : Nat}
    (h : candName stem ext m = candName stem ext n) : m = n := by
  unfold candName at h
  have h1 := List.append_cancel_left h
  have h2 : decRepr m ++ ext = decRepr n ++ ext := by
    injection h1
  exact decRepr_injective m n (List.append_cancel_right h2)

theorem searchSuffix_spec (taken : List (List Char)) (stem ext : List Char) :
    ∀ fuel n, (∃ k, k < fuel ∧ candName stem ext (n + k) ∉ taken) →
      ∃ m, n ≤ m ∧ searchSuffix taken stem ext fuel n = some (candName stem ext m) ∧
        candName stem ext m ∉ taken ∧
        (∀ j, n ≤ j → j < m → candName stem ext j ∈ taken) := by
  intro fuel
  induction fuel with
  | zero =>
    rintro n ⟨k, hk, -⟩
    omega
  | succ fuel ih =>
    rintro n ⟨k, hk, hfree⟩
    have hstep : searchSuffix taken stem ext (fuel + 1) n =
        (if candName stem ext n ∈ taken then searchSuffix taken stem ext fuel (n + 1)
         else some (candName stem ext n)) := rfl
    by_cases hc : candName stem ext n ∈ taken
    · have hk0 : k ≠ 0 := by
        intro h0
        subst h0
        rw [Nat.add_zero] at hfree
        exact hfree hc
      obtain ⟨m, hm1, hm2, hm3, hm4⟩ := ih (n + 1)
        ⟨k - 1, by omega, by rw [show n + 1 + (k - 1) = n + k by omega]; exact hfree⟩
      refine ⟨m, by omega, ?_, hm3, ?_⟩
      · rw [hstep, if_pos hc]
        exact hm2
      · intro j hj1 hj2
        by_cases hjn : j = n
        · subst hjn; exact hc
        · exact hm4 j (by omega) hj2
    · refine ⟨n, Nat.le_refl n, ?_, hc, by omega⟩
      rw [hstep, if_neg hc]

theorem exists_free_cand (taken : List (List Char)) (stem ext : List Char) :
    ∃ k, k < taken.length + 1 ∧ candName stem ext (2 + k) ∉ taken := by
  by_contra hcon
  push_neg at hcon
  have hinj : Function.Injective
      (fun k : Fin (taken.length + 1) => candName stem ext (2 + (k : Nat))) := by
    intro a b hab
    have := candName_inj stem ext hab
    exact Fin.ext (by omega)
  have hsub : (Finset.univ.image
      fun k : Fin (taken.length + 1) => candName stem ext (2 + (k : Nat)))
      ⊆ taken.toFinset := by
    intro x hx
    rw [Finset.mem_image] at hx
    obtain ⟨k, -, hk⟩ := hx
    rw [List.mem_toFinset, ← hk]
    exact hcon (k : Nat) k.isLt
  have hcard := Finset.card_le_card hsub
  rw [Finset.card_image_of_injective _ hinj, Finset.card_univ, Fintype.card_fin] at hcard
  have := taken.toFinset_card_le
  omega

/-- C7: the destination builder always returns a name that is not already
taken (no overwrite); when the template base name is free it is used as is,
and on collision the candidate `stem_n.pdf` with the smallest free `n ≥ 2` is
chosen. -/
theorem build_destination_spec (teacher student : List Char)
    (textName : Option (List Char)) (date : List Char) (taken : List (List Char)) :
    ∃ dst, build_destination teacher student textName date taken = some dst ∧
      dst ∉ taken ∧
      (baseNameOf teacher student textName date ∉ taken →
        dst = baseNameOf teacher student textName date) ∧
      (baseNameOf teacher student textName date ∈ taken →
        ∃ m, 2 ≤ m ∧
          dst = candName (splitExt (baseNameOf teacher student textName date)).1
            (splitExt (baseNameOf teacher student textName date)).2 m ∧
          (∀ j, 2 ≤ j → j < m →
            candName (splitExt (baseNameOf teacher student textName date)).1
              (splitExt (baseNameOf teacher student textName date)).2 j ∈ taken)) := by
  by_cases hb : baseNameOf teacher student textName date ∈ taken
  · obtain ⟨k, hk, hfree⟩ := exists_free_cand taken
      (splitExt (baseNameOf teacher student textName date)).1
      (splitExt (baseNameOf teacher student textName date)).2
    obtain ⟨m, hm1, hm2, hm3, hm4⟩ := searchSuffix_spec taken
      (splitExt (baseNameOf teacher student textName date)).1
      (splitExt (baseNameOf teacher student textName date)).2
      (taken.length + 1) 2 ⟨k, hk, hfree⟩
    refine ⟨_, ?_, hm3, fun hcon => absurd hb hcon, fun _ => ⟨m, hm1, rfl, hm4⟩⟩
    unfold build_destination
    rw [if_pos hb]
    exact hm2
  · refine ⟨baseNameOf teacher student textName date, ?_, hb, fun _ => rfl,
      fun hcon => absurd hcon hb⟩
    unfold build_destination
    rw [if_neg hb]

/-- C7, witness: two relocations for the same student/teacher/date (no text
name, date `2024.01.01`, teacher folder initially empty) produce
`QS_2024.01.01_山中秀悟さん_田中.pdf` and then
`QS_2024.01.01_山中秀悟さん_田中_2.pdf`; the second name does not collide with
the first. -/
theorem build_destination_spec_witness :
    build_destination "田中".data "山中秀悟".data none "2024.01.01".data []
      = some "QS_2024.01.01_山中秀悟さん_田中.pdf".data ∧
    build_destination "田中".data "山中秀悟".data none "2024.01.01".data
        ["QS_2024.01.01_山中秀悟さん_田中.pdf".data]
      = some "QS_2024.01.01_山中秀悟さん_田中_2.pdf".data ∧
    ("QS_2024.01.01_山中秀悟さん_田中_2.pdf".data : List Char)
      ∉ [("QS_2024.01.01_山中秀悟さん_田中.pdf".data : List Char)] := by
  have hbase : baseNameOf "田中".data "山中秀悟".data none "2024.01.01".data
      = "QS_2024.01.01_山中秀悟さん_田中.pdf".data := by decide
  obtain ⟨d1, he1, -, hb1, -⟩ :=
    build_destination_spec "田中".data "山中秀悟".data none "2024.01.01".data []
  obtain ⟨d2, he2, -, -, hc2⟩ :=
    build_destination_spec "田中".data "山中秀悟".data none "2024.01.01".data
      ["QS_2024.01.01_山中秀悟さん_田中.pdf".data]
  have hd1 : d1 = "QS_2024.01.01_山中秀悟さん_田中.pdf".data := by
    rw [hb1 (by rw [hbase]; exact List.not_mem_nil _), hbase]
  obtain ⟨m, hm2, hdm, hmin⟩ := hc2 (by rw [hbase]; exact List.mem_singleton.mpr rfl)
  have hcand2 : candName
      (splitExt (baseNameOf "田中".data "山中秀悟".data none "2024.01.01".data)).1
      (splitExt (baseNameOf "田中".data "山中秀悟".data none "2024.01.01".data)).2 2
      ∉ [("QS_2024.01.01_山中秀悟さん_田中.pdf".data : List Char)] := by decide
  have hm : m = 2 := by
    by_contra hne
    exact hcand2 (hmin 2 (Nat.le_refl 2) (by omega))
  have hd2 : d2 = "QS_2024.01.01_山中秀悟さん_田中_2.pdf".data := by
    rw [hdm, hm]
    decide
  exact ⟨hd1 ▸ he1, hd2 ▸ he2, by decide⟩

/-- C9: the duplicate guard of both `handle_pdf` implementations: a call whose
path key is already registered is a no-op — the set is unchanged and the run
performs no file move and writes no outcome record — and otherwise the key is
added at the start and removed again on every exit path, so the set is
restored and never retains the key of a completed call. -/
theorem handle_pdf_duplicate_guard (envP : PrinterEnv) (envY : YotsuyaEnv)
    (s : List String) :
    (envP.pathKey ∈ s →
      (handle_pdf_printer envP s).1 = s ∧
      ∀ a ∈ (handle_pdf_printer envP s).2,
        isMoveAction a = false ∧ isLogRecAction a = false) ∧
    (envY.pathKey ∈ s →
      (handle_pdf_yotsuya envY s).1 = s ∧
      ∀ a ∈ (handle_pdf_yotsuya envY s).2,
        isMoveAction a = false ∧ isLogRecAction a = false) ∧
    (handle_pdf_printer envP s).1 = s ∧
    (handle_pdf_yotsuya envY s).1 = s ∧
    (envP.pathKey ∉ s → envP.pathKey ∉ (handle_pdf_printer envP s).1) ∧
    (envY.pathKey ∉ s → envY.pathKey ∉ (handle_pdf_yotsuya envY s).1) := by
  have hP : (handle_pdf_printer envP s).1 = s := by
    unfold handle_pdf_printer
    by_cases h : envP.pathKey ∈ s
    · rw [if_pos h]
    · rw [if_neg h]
      exact List.erase_cons_head envP.pathKey s
  have hY : (handle_pdf_yotsuya envY s).1 = s := by
    unfold handle_pdf_yotsuya
    by_cases h : envY.pathKey ∈ s
    · rw [if_pos h]
    · rw [if_neg h]
      exact List.erase_cons_head envY.pathKey s
  refine ⟨?_, ?_, hP, hY, fun h => by rw [hP]; exact h, fun h => by rw [hY]; exact h⟩
  · intro h
    have hacts : (handle_pdf_printer envP s).2 = [.logMsg "skip" envP.pathKey] := by
      unfold handle_pdf_printer
      rw [if_pos h]
    refine ⟨hP, ?_⟩
    rw [hacts]
    intro a ha
    rw [List.mem_singleton.mp ha]
    exact ⟨rfl, rfl⟩
  · intro h
    have hacts : (handle_pdf_yotsuya envY s).2 = [.logMsg "skip" envY.pathKey] := by
      unfold handle_pdf_yotsuya
      rw [if_pos h]
    refine ⟨hY, ?_⟩
    rw [hacts]
    intro a ha
    rw [List.mem_singleton.mp ha]
    exact ⟨rfl, rfl⟩

/-- C9, witness: the guard evaluated on concrete registered and unregistered
keys. -/
theorem handle_pdf_duplicate_guard_witness :
    (handle_pdf_printer ⟨"in/a.pdf", "a.pdf", true, true, some "yotsuya",
        [("yotsuya", "RICOH")], true, some "QS_1", none, true, true⟩
        ["in/a.pdf"]).1 = ["in/a.pdf"] ∧
    (∀ a ∈ (handle_pdf_printer ⟨"in/a.pdf", "a.pdf", true, true, some "yotsuya",
        [("yotsuya", "RICOH")], true, some "QS_1", none, true, true⟩
        ["in/a.pdf"]).2, isMoveAction a = false ∧ isLogRecAction a = false) ∧
    "in/a.pdf" ∉ (handle_pdf_printer ⟨"in/a.pdf", "a.pdf", true, true, some "yotsuya",
        [("yotsuya", "RICOH")], true, some "QS_1", none, true, true⟩ []).1 ∧
    "in/b.pdf" ∉ (handle_pdf_yotsuya ⟨"in/b.pdf", "b.pdf", true, true, some "QS_1",
        some "f.pdf", none, true, true, true⟩ []).1 := by
  have h1 := handle_pdf_duplicate_guard
    ⟨"in/a.pdf", "a.pdf", true, true, some "yotsuya",
      [("yotsuya", "RICOH")], true, some "QS_1", none, true, true⟩
    ⟨"in/b.pdf", "b.pdf", true, true, some "QS_1",
      some "f.pdf", none, true, true, true⟩ ["in/a.pdf"]
  have h2 := handle_pdf_duplicate_guard
    ⟨"in/a.pdf", "a.pdf", true, true, some "yotsuya",
      [("yotsuya", "RICOH")], true, some "QS_1", none, true, true⟩
    ⟨"in/b.pdf", "b.pdf", true, true, some "QS_1",
      some "f.pdf", none, true, true, true⟩ []
  have hmem : ("in/a.pdf" : String) ∈ ["in/a.pdf"] := by decide
  exact ⟨(h1.1 hmem).1, (h1.1 hmem).2, h2.2.2.2.2.1 (by decide), h2.2.2.2.2.2 (by decide)⟩

theorem router_no_move_of_failure (envR : RouterEnv)
    (h : envR.render = .noQr ∨ envR.render = .raised ∨
      (∃ p, envR.render = .payload p ∧ parse_qr_payload p = none)) :
    ∀ a ∈ handle_pdf_router envR, isMoveAction a = false := by
  obtain ⟨pk, isPdf, st, render, date, taken⟩ := envR
  intro a ha
  simp only [handle_pdf_router] at ha
  by_cases h1 : isPdf = false
  · rw [if_pos h1] at ha
    cases ha
  · rw [if_neg h1] at ha
    by_cases h2 : st = false
    · rw [if_pos h2] at ha
      rw [List.mem_singleton.mp ha]
      rfl
    · rw [if_neg h2] at ha
      rcases h with hr | hr | ⟨p, hr, hpp⟩ <;> cases hr
      · rw [List.mem_singleton.mp ha]
        rfl
      · rw [List.mem_singleton.mp ha]
        rfl
      · simp only [hpp] at ha
        rcases List.mem_cons.mp ha with he | he
        · rw [he]; rfl
        · rw [List.mem_singleton.mp he]; rfl

/-- C3, counterexample: a decode failure in `scan_router.py` — the handler only
writes the `NOQR` log line; no move action is emitted, so the scanned file
stays in its intake folder instead of being moved to the ERROR folder. -/
theorem router_error_not_moved_cex :
    handle_pdf_router ⟨"in/scan1.pdf", true, true, RenderResult.noQr,
        "2024.01.01".data, []⟩
      = [FileAction.logMsg "NOQR" "in/scan1.pdf"] ∧
    ∀ a ∈ handle_pdf_router ⟨"in/scan1.pdf", true, true, RenderResult.noQr,
        "2024.01.01".data, []⟩, isMoveAction a = false := by
  refine ⟨rfl, by decide⟩

/-- C3, amended: in `scan_printer.py`, every terminal failure (decode failure,
artifact not found, print dispatch failure) moves the scanned file from the
processing folder to the error folder and appends an outcome record — decode
failure with error message "QR not found" — while in `scan_router.py` the
terminal failures (decode failure, malformed payload, unexpected exception)
only log (malformed payloads with the raw payload) and leave the file in its
intake folder. -/
theorem terminal_failure_routing (envP : PrinterEnv) (envR : RouterEnv)
    (s : List String) (campus cfgPrinter : String)
    (hP1 : envP.isPdfExt = true) (hP2 : envP.stable = true)
    (hP3 : envP.campus = some campus)
    (hP4 : lookupMapping envP.printerCfg campus = some cfgPrinter)
    (hP5 : envP.moveToProcessingOk = true)
    (hP6 : envP.pathKey ∉ s) :
    (envP.qrPrintId = none →
      (handle_pdf_printer envP s).2 =
        [.move envP.pathKey ("processing/" ++ envP.name),
         .move ("processing/" ++ envP.name) ("error/" ++ envP.name),
         .logRec "error" "QR not found"]) ∧
    (∀ pid, envP.qrPrintId = some pid → envP.artifactFound = false →
      (handle_pdf_printer envP s).2 =
        [.move envP.pathKey ("processing/" ++ envP.name),
         .move ("processing/" ++ envP.name) ("error/" ++ envP.name),
         .logRec "error" ("PDF not found: " ++ pid ++ ".pdf")]) ∧
    (∀ pid, envP.qrPrintId = some pid → envP.artifactFound = true →
      envP.printOk = false →
      (handle_pdf_printer envP s).2 =
        [.move envP.pathKey ("processing/" ++ envP.name),
         .move ("processing/" ++ envP.name) ("error/" ++ envP.name),
         .logRec "error" "Print failed"]) ∧
    ((envR.render = .noQr ∨ envR.render = .raised ∨
        (∃ p, envR.render = .payload p ∧ parse_qr_payload p = none)) →
      ∀ a ∈ handle_pdf_router envR, isMoveAction a = false) := by
  refine ⟨?_, ?_, ?_, router_no_move_of_failure envR⟩
  · intro hq
    simp [handle_pdf_printer, if_neg hP6, hP1, hP2, hP3, hP4, hP5, hq]
  · intro pid hq hart
    simp [handle_pdf_printer, if_neg hP6, hP1, hP2, hP3, hP4, hP5, hq, hart]
  · intro pid hq hart hpr
    simp [handle_pdf_printer, if_neg hP6, hP1, hP2, hP3, hP4, hP5, hq, hart, hpr]

/-- C3, witness: a concrete decode failure in each watcher — `scan_printer.py`
moves the file to the error folder and records "QR not found";
`scan_router.py` emits no move. -/
theorem terminal_failure_routing_witness :
    (handle_pdf_printer ⟨"in/a.pdf", "a.pdf", true, true, some "yotsuya",
        [("yotsuya", "RICOH")], true, none, none, true, true⟩ []).2 =
      [.move "in/a.pdf" "processing/a.pdf",
       .move "processing/a.pdf" "error/a.pdf",
       .logRec "error" "QR not found"] ∧
    ∀ a ∈ handle_pdf_router ⟨"in/b.pdf", true, true, RenderResult.noQr,
        "2024.01.01".data, []⟩, isMoveAction a = false := by
  have h := terminal_failure_routing
    ⟨"in/a.pdf", "a.pdf", true, true, some "yotsuya",
      [("yotsuya", "RICOH")], true, none, none, true, true⟩
    ⟨"in/b.pdf", true, true, RenderResult.noQr, "2024.01.01".data, []⟩
    [] "yotsuya" "RICOH" rfl rfl rfl (by decide) rfl (by decide)
  exact ⟨h.1 rfl, h.2.2.2 (Or.inl rfl)⟩

/-- C4, counterexample: SumatraPDF and Adobe Reader are both installed and
SumatraPDF fails, yet the dispatcher goes directly to the default-printer swap
— Adobe Reader is never attempted, contradicting the claimed fixed order
(a) Sumatra, (b) Reader, (c) swap with each failure handed to the next
backend. -/
theorem print_pdf_skips_acrobat_cex :
    backendsOf (print_pdf_dispatch ⟨"P1".data, ["P1".data], [], true, true,
        false, true, "P0".data, false, true⟩).2
      = [Backend.sumatra, Backend.defaultSwap] ∧
    Backend.acrobat ∉ backendsOf (print_pdf_dispatch ⟨"P1".data, ["P1".data], [],
        true, true, false, true, "P0".data, false, true⟩).2 ∧
    (⟨"P1".data, ["P1".data], [], true, true, false, true, "P0".data, false,
        true⟩ : DispatchEnv).acrobatInstalled = true := by
  refine ⟨by decide, by decide, rfl⟩

/-- C4, amended: after printer resolution, when SumatraPDF is installed the
dispatcher tries it and, on failure, falls back directly to the temporary
default-printer swap (Adobe Reader is not attempted); Adobe Reader is tried —
with the same swap fallback — only when SumatraPDF is absent; with neither
installed the dispatch fails with no backend attempted; and whenever the
default-printer swap sets a new default printer, the original default printer
is set again afterwards, even when the print call fails or raises. -/
theorem print_pdf_dispatch_spec (env : DispatchEnv) (target : List Char)
    (hres : resolvePrinter env = some target) (hta : target ∈ env.avail) :
    (env.sumatraInstalled = true → env.sumatraOk = true →
      print_pdf_dispatch env = (true, [.attempt .sumatra])) ∧
    (env.sumatraInstalled = true → env.sumatraOk = false →
      backendsOf (print_pdf_dispatch env).2 = [.sumatra, .defaultSwap]) ∧
    (env.sumatraInstalled = false → env.acrobatInstalled = true →
      env.acrobatOk = false →
      backendsOf (print_pdf_dispatch env).2 = [.acrobat, .defaultSwap]) ∧
    (env.sumatraInstalled = false → env.acrobatInstalled = false →
      print_pdf_dispatch env = (false, [])) ∧
    (∀ p, PrintAction.setDefault p ∈ (print_pdf_dispatch env).2 →
      PrintAction.setDefault env.defaultPrinter ∈ (print_pdf_dispatch env).2) := by
  refine ⟨?_, ?_, ?_, ?_, ?_⟩
  · intro h1 h2
    simp [print_pdf_dispatch, hres, hta, h1, h2]
  · intro h1 h2
    simp [print_pdf_dispatch, hres, hta, h1, h2, defaultSwapRun, backendsOf]
  · intro h1 h2 h3
    simp [print_pdf_dispatch, hres, hta, h1, h2, h3, defaultSwapRun, backendsOf]
  · intro h1 h2
    simp [print_pdf_dispatch, hres, h1, h2]
  · intro p hp
    by_cases h1 : env.sumatraInstalled = true
    · by_cases h2 : env.sumatraOk = true
      · simp [print_pdf_dispatch, hres, hta, h1, h2] at hp
      · simp only [Bool.not_eq_true] at h2
        simp [print_pdf_dispatch, hres, hta, h1, h2, defaultSwapRun] at hp ⊢
    · simp only [Bool.not_eq_true] at h1
      by_cases h2 : env.acrobatInstalled = true
      · by_cases h3 : env.acrobatOk = true
        · simp [print_pdf_dispatch, hres, hta, h1, h2, h3] at hp
        · simp only [Bool.not_eq_true] at h3
          simp [print_pdf_dispatch, hres, hta, h1, h2, h3, defaultSwapRun] at hp ⊢
      · simp only [Bool.not_eq_true] at h2
        simp [print_pdf_dispatch, hres, h1, h2] at hp

/-- C4, witness: the amended dispatch order evaluated on concrete
environments: SumatraPDF installed and failing, and SumatraPDF absent with
Adobe Reader failing. -/
theorem print_pdf_dispatch_spec_witness :
    backendsOf (print_pdf_dispatch ⟨"P1".data, ["P1".data], [], true, false,
        false, false, "P0".data, false, true⟩).2
      = [Backend.sumatra, Backend.defaultSwap] ∧
    backendsOf (print_pdf_dispatch ⟨"P1".data, ["P1".data], [], false, true,
        false, false, "P0".data, false, true⟩).2
      = [Backend.acrobat, Backend.defaultSwap] ∧
    PrintAction.setDefault "P0".data ∈ (print_pdf_dispatch ⟨"P1".data,
        ["P1".data], [], true, false, false, false, "P0".data, false, true⟩).2 := by
  have h1 := print_pdf_dispatch_spec
    ⟨"P1".data, ["P1".data], [], true, false, false, false, "P0".data, false, true⟩
    "P1".data (by decide) (by decide)
  have h2 := print_pdf_dispatch_spec
    ⟨"P1".data, ["P1".data], [], false, true, false, false, "P0".data, false, true⟩
    "P1".data (by decide) (by decide)
  exact ⟨h1.2.1 rfl rfl, h2.2.2.1 rfl rfl rfl,
    h1.2.2.2.2 "P1".data (by decide)⟩

end PPTMaker
